import Mathlib

/-
Verification development for the judging engine of the oj_project
repository.  The definitions below are a shallow embedding of the code in
compiler/views.py (class SecureCodeRunner, class UniversalTestCaseParser,
functions evaluate_submission and evaluate_file_test_cases) and of the
verdict vocabulary in core/models.py (Submission.VERDICT_CHOICES).
-/

namespace OJ

/-! ## String primitives mirroring the Python string methods used -/

/-- The whitespace characters stripped by the Python str.strip and
str.rstrip methods, restricted to the ASCII range that the repository
handles. -/
def pyWhitespace (c : Char) : Bool :=
  c = ' ' || c = '\t' || c = '\n' || c = '\r' || c = '\x0b' || c = '\x0c'

/-- Python str.rstrip with no argument: drop trailing whitespace. -/
def pyRstrip (s : String) : String :=
  ⟨(s.toList.reverse.dropWhile pyWhitespace).reverse⟩

/-- Python str.lstrip with no argument: drop leading whitespace. -/
def pyLstrip (s : String) : String :=
  ⟨s.toList.dropWhile pyWhitespace⟩

/-- Python str.strip with no argument: drop leading and trailing
whitespace. -/
def pyStrip (s : String) : String :=
  pyRstrip (pyLstrip s)

/-- Worker for pySplitOn: scan the character list left to right; at a
position where the separator is a prefix, close the current piece and
skip the separator; the fuel argument begins at the length of the list
and never runs out before the list does. -/
def pySplitAux (d : Char) (ds : List Char) : Nat → List Char → List (List Char)
  | _, [] => [[]]
  | 0, l => [l]
  | fuel+1, c :: rest =>
    if (d :: ds).isPrefixOf (c :: rest) then
      [] :: pySplitAux d ds fuel (rest.drop ds.length)
    else
      match pySplitAux d ds fuel rest with
      | [] => [[c]]
      | g :: gs => (c :: g) :: gs

/-- Python str.split with a non-empty separator argument: split on
leftmost non-overlapping occurrences; splitting the empty string yields
one empty piece. -/
def pySplitOn (s : String) (sep : String) : List String :=
  match sep.toList with
  | [] => [s]
  | d :: ds => (pySplitAux d ds s.toList.length s.toList).map (fun l => ⟨l⟩)

/-- Worker for pyReplace, with the same fuel discipline as pySplitAux. -/
def pyReplaceAux (d : Char) (ds : List Char) (rep : List Char) :
    Nat → List Char → List Char
  | _, [] => []
  | 0, l => l
  | fuel+1, c :: rest =>
    if (d :: ds).isPrefixOf (c :: rest) then
      rep ++ pyReplaceAux d ds rep fuel (rest.drop ds.length)
    else
      c :: pyReplaceAux d ds rep fuel rest

/-- Python str.replace for a non-empty pattern: replace every leftmost
non-overlapping occurrence of the pattern. -/
def pyReplace (s pat rep : String) : String :=
  match pat.toList with
  | [] => s
  | d :: ds => ⟨pyReplaceAux d ds rep.toList s.toList.length s.toList⟩

/-- Python membership test of a non-empty pattern in a string, expressed
through the split function: the pattern occurs iff splitting on it yields
more than one piece. -/
def strContains (s sub : String) : Bool :=
  (pySplitOn s sub).length > 1

/-! ## Verdicts (core/models.py, Submission.VERDICT_CHOICES) -/

/-- The verdict vocabulary of the Submission model: Accepted, Wrong
Answer, Time Limit Exceeded, Runtime Error, Compilation Error, Pending
Evaluation, Internal Error. -/
inductive Verdict where
  | AC | WA | TLE | RE | CE | PE | IE
  deriving DecidableEq, Repr

/-! ## Test cases (the dictionaries built by UniversalTestCaseParser) -/

/-- One parsed test case: the dictionary with keys input, output and
case_number built by UniversalTestCaseParser. -/
structure TC where
  input : String
  output : String
  case_number : Nat
  deriving DecidableEq, Repr

/-- The list comprehension shared by the three detection strategies:
given the positionally zipped pairs, build the case dictionaries with
case_number equal to the enumeration index plus one. -/
def numberCases (pairs : List (String × String)) : List TC :=
  pairs.enum.map fun p => { input := p.2.1, output := p.2.2, case_number := p.1 + 1 }

/-! ## UniversalTestCaseParser.normalize_output -/

/-- Python: while lines and not lines[-1]: lines.pop().  Removes the
trailing run of empty strings. -/
def dropTrailingEmpty (lines : List String) : List String :=
  (lines.reverse.dropWhile (fun l => l = "")).reverse

/-- UniversalTestCaseParser.normalize_output on a non-null argument:
unify line endings to a bare newline, split into lines, strip trailing
whitespace from every line, drop trailing empty lines, and rejoin with
newlines. -/
def normalize_output (text : String) : String :=
  let normalized := pyReplace (pyReplace text "\r\n" "\n") "\r" "\n"
  let lines := (pySplitOn normalized "\n").map pyRstrip
  String.intercalate "\n" (dropTrailingEmpty lines)

/-! ## UniversalTestCaseParser detection strategies -/

/-- Strategy 1, UniversalTestCaseParser._try_section_parsing: split both
blobs on double newlines into stripped non-empty sections; if more than
one input section and the section counts agree, pair positionally.
Otherwise, if the input section count matches the count of stripped
non-empty output lines, pair sections with lines.  Otherwise yield
nothing. -/
def try_section_parsing (input_content output_content : String) : Option (List TC) :=
  let input_sections :=
    ((pySplitOn (pyStrip input_content) "\n\n").map pyStrip).filter (fun s => s ≠ "")
  let output_sections :=
    ((pySplitOn (pyStrip output_content) "\n\n").map pyStrip).filter (fun s => s ≠ "")
  if input_sections.length > 1 ∧ input_sections.length = output_sections.length then
    some (numberCases ((input_sections.zip output_sections).map
      (fun p => (pyStrip p.1, pyStrip p.2))))
  else
    let output_lines :=
      ((pySplitOn (pyStrip output_content) "\n").map pyStrip).filter (fun s => s ≠ "")
    if input_sections.length > 1 ∧ input_sections.length = output_lines.length then
      some (numberCases ((input_sections.zip output_lines).map
        (fun p => (pyStrip p.1, pyStrip p.2))))
    else
      none

/-- Strategy 2, UniversalTestCaseParser._try_line_parsing: split both
blobs into stripped non-empty lines; if the counts agree and exceed one,
pair line by line. -/
def try_line_parsing (input_content output_content : String) : Option (List TC) :=
  let input_lines :=
    ((pySplitOn (pyStrip input_content) "\n").map pyStrip).filter (fun s => s ≠ "")
  let output_lines :=
    ((pySplitOn (pyStrip output_content) "\n").map pyStrip).filter (fun s => s ≠ "")
  if input_lines.length = output_lines.length ∧ input_lines.length > 1 then
    some (numberCases (input_lines.zip output_lines))
  else
    none

/-- The grouping loop of _try_intelligent_parsing: walk the input lines,
stripping each; a blank line flushes the current group, a non-blank line
is appended to it; a trailing group is flushed at the end.  Groups are
rejoined with newlines. -/
def groupByBlank (lines : List String) (current : List String) : List String :=
  match lines with
  | [] => if current ≠ [] then [String.intercalate "\n" current.reverse] else []
  | l :: rest =>
    let l := pyStrip l
    if l = "" then
      if current ≠ [] then
        String.intercalate "\n" current.reverse :: groupByBlank rest []
      else
        groupByBlank rest []
    else
      groupByBlank rest (l :: current)

/-- Strategy 3, UniversalTestCaseParser._try_intelligent_parsing: group
the input lines on blank lines, keep the non-empty groups, compare their
count with the count of stripped non-empty output lines, and pair
positionally when the counts agree and exceed one. -/
def try_intelligent_parsing (input_content output_content : String) : Option (List TC) :=
  let input_lines := pySplitOn (pyStrip input_content) "\n"
  let input_groups := (groupByBlank input_lines []).filter (fun g => pyStrip g ≠ "")
  let output_lines :=
    ((pySplitOn (pyStrip output_content) "\n").map pyStrip).filter (fun s => s ≠ "")
  if input_groups.length = output_lines.length ∧ input_groups.length > 1 then
    some (numberCases (input_groups.zip output_lines))
  else
    none

/-- UniversalTestCaseParser.parse_test_cases: empty or whitespace-only
content yields the empty list; otherwise the three strategies are tried
in order and the first that yields a result wins (in the Python source
the truthiness test on the result coincides with the option match here,
because every strategy yields either None or a list of length at least
two); the fallback is one single whole-blob test case. -/
def parse_test_cases (input_content output_content : String) : List TC :=
  if pyStrip input_content = "" ∨ pyStrip output_content = "" then
    []
  else
    match try_section_parsing input_content output_content with
    | some result => result
    | none =>
      match try_line_parsing input_content output_content with
      | some result => result
      | none =>
        match try_intelligent_parsing input_content output_content with
        | some result => result
        | none =>
          [{ input := pyStrip input_content, output := pyStrip output_content,
             case_number := 1 }]

end OJ

namespace OJ

/-! ## SecureCodeRunner: toolchain resolution (compiler/views.py) -/

/-- The candidate interpreter locations tried by
SecureCodeRunner._find_python, in order. -/
def pythonCandidates : List String :=
  ["/usr/local/bin/python3", "/usr/bin/python3", "/opt/python3/bin/python3",
   "python3", "/usr/bin/python", "python"]

/-- SecureCodeRunner._find_python.  The probe argument abstracts one
subprocess.run of the version command: none models the FileNotFoundError
or TimeoutExpired continue branch, some (code, out) models a completed
probe with its exit code and captured stdout.  A candidate is accepted
when the probe exits zero and its stdout contains the substring 3
followed by a dot; the first accepted candidate wins, and if none is
accepted the method returns None. -/
def find_python (probe : String → Option (Int × String)) : Option String :=
  pythonCandidates.findSome? fun cmd =>
    match probe cmd with
    | none => none
    | some r => if r.1 = 0 ∧ strContains r.2 "3." then some cmd else none

/-! ## SecureCodeRunner: per-language execution -/

/-- Outcome of waiting on a spawned process: either it exited with a
code, or the wait raised subprocess.TimeoutExpired. -/
inductive ProcResult where
  | exited (code : Int)
  | timedOut
  deriving DecidableEq, Repr

/-- SecureCodeRunner._run_python, with the environment-dependent steps
abstracted as arguments: python_cmd is the result of _find_python,
execResult the fate of the spawned interpreter process, stdout the
content read back from the output file.  A missing interpreter returns
None; a timeout (after the process-group kill escalation) returns None; a
non-zero exit returns None; only a zero exit returns the captured
stdout. -/
def run_python (python_cmd : Option String) (execResult : ProcResult)
    (stdout : String) : Option String :=
  match python_cmd with
  | none => none
  | some _ =>
    match execResult with
    | .timedOut => none
    | .exited code => if code ≠ 0 then none else some stdout

/-- SecureCodeRunner._run_cpp, instrumented: the first component is the
returned value, the second records whether the execution phase (the
Popen of the compiled executable) was reached.  A missing compiler
returns None; a compile timeout raises into the outer except and returns
None; a non-zero compile exit returns None without ever executing; after
a successful compile, a timeout or non-zero exit of the program returns
None, and a zero exit returns the captured stdout. -/
def run_cppT (compiler : Option String) (compileResult : ProcResult)
    (execResult : ProcResult) (stdout : String) : Option String × Bool :=
  match compiler with
  | none => (none, false)
  | some _ =>
    match compileResult with
    | .timedOut => (none, false)
    | .exited ccode =>
      if ccode ≠ 0 then (none, false)
      else
        match execResult with
        | .timedOut => (none, true)
        | .exited rcode => (if rcode ≠ 0 then none else some stdout, true)

/-- SecureCodeRunner._run_cpp proper: the value returned to run_code. -/
def run_cpp (compiler : Option String) (compileResult : ProcResult)
    (execResult : ProcResult) (stdout : String) : Option String :=
  (run_cppT compiler compileResult execResult stdout).1

/-! ## SecureCodeRunner.run_code: the workspace lifecycle -/

/-- How one run_code call unfolds, seen from the workspace: either an
exception fires before the workspace directory is created, or the
language dispatch returns a value (None included), or an exception fires
after the workspace exists and is caught by the outer except. -/
inductive RunAttempt where
  | beforeWorkspace
  | body (result : Option String)
  | raised
  deriving DecidableEq, Repr

/-- SecureCodeRunner.run_code, seen as a transformer of the set of
directories on disk (modelled as a list).  The workspace ws is created
with mkdir(parents=True, exist_ok=True) at the start of the try block,
the body produces the returned value (an uncaught exception is converted
to None by the except clause), and the finally clause removes the
workspace whenever it exists.  The pair returned is (value, directories
left on disk). -/
def run_code_fs (dirs : List String) (ws : String) (attempt : RunAttempt) :
    Option String × List String :=
  match attempt with
  | .beforeWorkspace => (none, dirs)
  | .body r =>
    let dirs1 := if ws ∈ dirs then dirs else ws :: dirs
    (r, if ws ∈ dirs1 then dirs1.filter (fun d => d ≠ ws) else dirs1)
  | .raised =>
    let dirs1 := if ws ∈ dirs then dirs else ws :: dirs
    (none, if ws ∈ dirs1 then dirs1.filter (fun d => d ≠ ws) else dirs1)

/-! ## The evaluator (evaluate_submission, evaluate_file_test_cases) -/

/-- The per-case loop of evaluate_file_test_cases.  The run argument
abstracts code_runner.run_code with the language and source fixed: it
maps the test input to the returned value.  A None return yields RE; a
normalized mismatch yields WA; otherwise the loop continues, and an
exhausted loop yields AC. -/
def evalCases (run : String → Option String) : List TC → Verdict
  | [] => .AC
  | c :: rest =>
    match run c.input with
    | none => .RE
    | some actual =>
      if normalize_output c.output ≠ normalize_output actual then .WA
      else evalCases run rest

/-- evalCases instrumented with the number of run_code invocations
performed before the loop stopped. -/
def evalCasesT (run : String → Option String) : List TC → Verdict × Nat
  | [] => (.AC, 0)
  | c :: rest =>
    match run c.input with
    | none => (.RE, 1)
    | some actual =>
      if normalize_output c.output ≠ normalize_output actual then (.WA, 1)
      else ((evalCasesT run rest).1, (evalCasesT run rest).2 + 1)

/-- evaluate_file_test_cases: when either per-problem test file is
missing the function returns AC at once; otherwise the two blobs are
parsed, an empty parse yields RE, and the parsed cases are run through
the per-case loop. -/
def evaluate_file_test_cases (inputExists outputExists : Bool)
    (input_content output_content : String)
    (run : String → Option String) : Verdict :=
  if ¬ inputExists ∨ ¬ outputExists then .AC
  else
    let test_cases := parse_test_cases input_content output_content
    if test_cases = [] then .RE
    else evalCases run test_cases

/-- evaluate_file_test_cases instrumented with the number of run_code
invocations. -/
def evaluate_file_test_casesT (inputExists outputExists : Bool)
    (input_content output_content : String)
    (run : String → Option String) : Verdict × Nat :=
  if ¬ inputExists ∨ ¬ outputExists then (.AC, 0)
  else
    let test_cases := parse_test_cases input_content output_content
    if test_cases = [] then (.RE, 0)
    else evalCasesT run test_cases

/-- Phase 1 of evaluate_submission: the loop over the database test
cases, given as (input, expected output) pairs.  Same failure mapping as
the file-based loop. -/
def evalDbCases (run : String → Option String) : List (String × String) → Verdict
  | [] => .AC
  | (inp, expectedOut) :: rest =>
    match run inp with
    | none => .RE
    | some actual =>
      if normalize_output expectedOut ≠ normalize_output actual then .WA
      else evalDbCases run rest

/-- evalDbCases instrumented with the number of run_code invocations. -/
def evalDbCasesT (run : String → Option String) : List (String × String) → Verdict × Nat
  | [] => (.AC, 0)
  | (inp, expectedOut) :: rest =>
    match run inp with
    | none => (.RE, 1)
    | some actual =>
      if normalize_output expectedOut ≠ normalize_output actual then (.WA, 1)
      else ((evalDbCasesT run rest).1, (evalDbCasesT run rest).2 + 1)

/-- evaluate_submission: phase 1 runs the database test cases and its
failure verdict is final; phase 2 delegates to evaluate_file_test_cases
and a non-AC verdict from it is final; otherwise the submission is
accepted. -/
def evaluate_submission (dbCases : List (String × String))
    (inputExists outputExists : Bool) (input_content output_content : String)
    (run : String → Option String) : Verdict :=
  let phase1 := evalDbCases run dbCases
  if phase1 ≠ .AC then phase1
  else
    let verdict := evaluate_file_test_cases inputExists outputExists
      input_content output_content run
    if verdict ≠ .AC then verdict else .AC

/-- evaluate_submission instrumented with the total number of run_code
invocations across both phases. -/
def evaluate_submissionT (dbCases : List (String × String))
    (inputExists outputExists : Bool) (input_content output_content : String)
    (run : String → Option String) : Verdict × Nat :=
  let phase1 := evalDbCasesT run dbCases
  if phase1.1 ≠ .AC then phase1
  else
    let phase2 := evaluate_file_test_casesT inputExists outputExists
      input_content output_content run
    (if phase2.1 ≠ .AC then phase2.1 else .AC, phase1.2 + phase2.2)

/-! ## Derived notions used by the statements -/

/-- A case passes under a given run function: the run returns a value
and the normalized outputs agree. -/
def casePasses (run : String → Option String) (c : TC) : Prop :=
  ∃ actual, run c.input = some actual ∧
    normalize_output c.output = normalize_output actual

/-- The verdict the per-case loop assigns to the first failing case: RE
when the run returned None, WA when it returned a mismatching value. -/
def firstFailVerdict (run : String → Option String) (c : TC) : Verdict :=
  match run c.input with
  | none => .RE
  | some _ => .WA

/-! ## The count-prefixed strategy the specification describes -/

/-- Chunks of k consecutive elements, driven by fuel so that the
definition reduces in the kernel. -/
def chunksAux (k : Nat) : Nat → List α → List (List α)
  | _, [] => []
  | 0, rest => [rest]
  | fuel+1, rest => rest.take k :: chunksAux k fuel (rest.drop k)

/-- Reads a string of decimal digits as a number; anything else is
rejected.  Used only by the spec-modelled strategy below. -/
def pyToNatAux : List Char → Nat → Option Nat
  | [], acc => some acc
  | c :: rest, acc =>
    if 48 ≤ c.toNat ∧ c.toNat ≤ 57 then
      pyToNatAux rest (acc * 10 + (c.toNat - 48))
    else
      none

/-- A bare non-negative integer literal, or nothing. -/
def pyToNat (s : String) : Option Nat :=
  match s.toList with
  | [] => none
  | l => pyToNatAux l 0

/-- Modelled from the spec: the count-prefixed detection strategy that
the specification lists as strategy 3 (if the first input line is a bare
integer N and the remaining lines divide evenly by N, treat it as N test
cases follow).  No such strategy exists anywhere in compiler/views.py;
this definition exists only to compare the specified behaviour with the
code. -/
def claimed_count_prefixed (input_content output_content : String) :
    Option (List TC) :=
  match pySplitOn (pyStrip input_content) "\n" with
  | [] => none
  | first :: rest =>
    match pyToNat (pyStrip first) with
    | none => none
    | some n =>
      let olines := pySplitOn (pyStrip output_content) "\n"
      if 0 < n ∧ n ≤ rest.length ∧ rest.length % n = 0 ∧
          n ≤ olines.length ∧ olines.length % n = 0 then
        some (numberCases
          (((chunksAux (rest.length / n) rest.length rest).map
              (String.intercalate "\n")).zip
            ((chunksAux (olines.length / n) olines.length olines).map
              (String.intercalate "\n"))))
      else none

end OJ

namespace OJ

/-! ## Helper lemmas about the parser -/

theorem numberCases_length (p : List (String × String)) :
    (numberCases p).length = p.length := by
  simp [numberCases]

theorem numberCases_get (p : List (String × String)) (i : Nat)
    (hi : i < (numberCases p).length) :
    ((numberCases p).get ⟨i, hi⟩).case_number = i + 1 := by
  simp only [numberCases, List.get_eq_getElem, List.getElem_map]
  have hi' : i < p.enum.length := by
    simpa [numberCases] using hi
  simp [List.getElem_enum]

theorem try_section_parsing_shape (a b : String) (r : List TC)
    (h : try_section_parsing a b = some r) :
    ∃ p : List (String × String), r = numberCases p ∧ 1 < p.length := by
  unfold try_section_parsing at h
  dsimp only at h
  split at h
  · rename_i hc
    refine ⟨_, (Option.some.inj h).symm, ?_⟩
    rw [List.length_map, List.length_zip]
    omega
  · split at h
    · rename_i hc
      refine ⟨_, (Option.some.inj h).symm, ?_⟩
      rw [List.length_map, List.length_zip]
      omega
    · exact absurd h (by simp)

theorem try_line_parsing_shape (a b : String) (r : List TC)
    (h : try_line_parsing a b = some r) :
    ∃ p : List (String × String), r = numberCases p ∧ 1 < p.length := by
  unfold try_line_parsing at h
  dsimp only at h
  split at h
  · rename_i hc
    refine ⟨_, (Option.some.inj h).symm, ?_⟩
    rw [List.length_zip]
    omega
  · exact absurd h (by simp)

theorem try_intelligent_parsing_shape (a b : String) (r : List TC)
    (h : try_intelligent_parsing a b = some r) :
    ∃ p : List (String × String), r = numberCases p ∧ 1 < p.length := by
  unfold try_intelligent_parsing at h
  dsimp only at h
  split at h
  · rename_i hc
    refine ⟨_, (Option.some.inj h).symm, ?_⟩
    rw [List.length_zip]
    omega
  · exact absurd h (by simp)

/-- Every possible result of parse_test_cases on non-blank blobs: a list
built by one of the three strategies (hence of length at least two), or
the single whole-blob fallback case. -/
theorem parse_test_cases_shape (inC outC : String)
    (h1 : pyStrip inC ≠ "") (h2 : pyStrip outC ≠ "") :
    (∃ p : List (String × String), parse_test_cases inC outC = numberCases p ∧
      1 < p.length) ∨
    parse_test_cases inC outC =
      [{ input := pyStrip inC, output := pyStrip outC, case_number := 1 }] := by
  unfold parse_test_cases
  rw [if_neg (by simp [h1, h2])]
  cases hs : try_section_parsing inC outC with
  | some r =>
    obtain ⟨p, hp, hlen⟩ := try_section_parsing_shape _ _ _ hs
    exact Or.inl ⟨p, hp ▸ rfl, hlen⟩
  | none =>
    cases hl : try_line_parsing inC outC with
    | some r =>
      obtain ⟨p, hp, hlen⟩ := try_line_parsing_shape _ _ _ hl
      exact Or.inl ⟨p, hp ▸ rfl, hlen⟩
    | none =>
      cases hi : try_intelligent_parsing inC outC with
      | some r =>
        obtain ⟨p, hp, hlen⟩ := try_intelligent_parsing_shape _ _ _ hi
        exact Or.inl ⟨p, hp ▸ rfl, hlen⟩
      | none => exact Or.inr rfl

end OJ

namespace OJ

/-! ## Helper lemmas about the evaluation loop -/

theorem evalCasesT_fst (run : String → Option String) (l : List TC) :
    (evalCasesT run l).1 = evalCases run l := by
  induction l with
  | nil => rfl
  | cons c rest ih =>
    cases hr : run c.input with
    | none => simp [evalCasesT, evalCases, hr]
    | some actual =>
      by_cases h : normalize_output c.output ≠ normalize_output actual
      · simp [evalCasesT, evalCases, hr, h]
      · simp [evalCasesT, evalCases, hr, h, ih]

theorem get_congr (l l' : List TC) (h : l = l') (i : Nat) (hi : i < l.length) :
    l.get ⟨i, hi⟩ = l'.get ⟨i, h ▸ hi⟩ := by
  subst h
  rfl

/-- The evaluation loop stops at the first failing case: all earlier
cases pass, the failing case fixes the verdict, and the run function is
invoked exactly once per case up to and including the failing one. -/
theorem evalCasesT_halt (run : String → Option String) (pre : List TC) (c : TC)
    (post : List TC) (hpre : ∀ c' ∈ pre, casePasses run c')
    (hc : ¬ casePasses run c) :
    evalCasesT run (pre ++ c :: post) = (firstFailVerdict run c, pre.length + 1) := by
  induction pre with
  | nil =>
    cases hr : run c.input with
    | none => simp [evalCasesT, firstFailVerdict, hr]
    | some actual =>
      have hne : normalize_output c.output ≠ normalize_output actual := by
        intro he
        exact hc ⟨actual, hr, he⟩
      simp [evalCasesT, firstFailVerdict, hr, hne]
  | cons c0 pre ih =>
    obtain ⟨a0, ha0, he0⟩ := hpre c0 (by simp)
    have hpre' : ∀ c' ∈ pre, casePasses run c' := fun c' hm => hpre c' (by simp [hm])
    have hrec := ih hpre'
    simp only [List.cons_append, evalCasesT, List.append_eq, ha0]
    rw [if_neg (not_not.mpr he0), hrec]
    simp

/-! ## Claim C4 -/

/-- Claim C4 counterexample: on a whitespace-only input blob (paired
with a non-empty output blob) parse_test_cases returns the empty list,
so the parser does not return at least one test case for every pair of
blobs including whitespace-only ones. -/
theorem C4_counterexample : parse_test_cases " " "x" = [] := by decide

/-- Claim C4 (amended): for every pair of blobs that both contain some
non-whitespace character, parse_test_cases is total and returns at least
one test case, falling back to the single whole-blob case when no
multi-case strategy matches; blobs whose input or output side is empty
or whitespace-only instead yield the empty list. -/
theorem C4_parse_nonempty (inC outC : String)
    (h1 : pyStrip inC ≠ "") (h2 : pyStrip outC ≠ "") :
    parse_test_cases inC outC ≠ [] := by
  rcases parse_test_cases_shape inC outC h1 h2 with ⟨p, hp, hlen⟩ | hp
  · rw [hp]
    intro hnil
    have hlen0 := congrArg List.length hnil
    rw [numberCases_length, List.length_nil] at hlen0
    omega
  · rw [hp]
    simp

/-- Witness for C4 at concrete blobs. -/
theorem C4_witness :
    pyStrip "1" ≠ "" ∧ pyStrip "2" ≠ "" ∧ parse_test_cases "1" "2" ≠ [] :=
  ⟨by decide, by decide, C4_parse_nonempty "1" "2" (by decide) (by decide)⟩

/-! ## Claim C5 -/

/-- Claim C5 counterexample: on the input blob with first line a bare
integer 2 followed by two lines, and a two-line output blob, the
count-prefixed strategy the claim lists third would produce two test
cases, while strategies one and two yield nothing; yet parse_test_cases
produces the single whole-blob fallback case, because no count-prefixed
strategy exists in the code. -/
theorem C5_counterexample :
    try_section_parsing "2\n5\n7" "5\n7" = none ∧
    try_line_parsing "2\n5\n7" "5\n7" = none ∧
    claimed_count_prefixed "2\n5\n7" "5\n7" =
      some [{ input := "5", output := "5", case_number := 1 },
            { input := "7", output := "7", case_number := 2 }] ∧
    parse_test_cases "2\n5\n7" "5\n7" =
      [{ input := "2\n5\n7", output := "5\n7", case_number := 1 }] :=
  ⟨by decide, by decide, by decide, by decide⟩

/-- Claim C5 (amended): the detector applies its strategies in the fixed
priority order (1) blank-line sections (pairing sections with sections,
or sections with non-empty output lines), (2) one-line-per-case, (3)
blank-line-grouped input groups paired with output lines, (4) whole-blob
fallback; there is no count-prefixed strategy.  For every pair of
non-blank blobs the first strategy in this order that yields a split
determines the result, even when a later strategy would also match. -/
theorem C5_priority (inC outC : String)
    (h1 : pyStrip inC ≠ "") (h2 : pyStrip outC ≠ "") :
    (∀ r, try_section_parsing inC outC = some r →
      parse_test_cases inC outC = r) ∧
    (try_section_parsing inC outC = none →
      ∀ r, try_line_parsing inC outC = some r →
        parse_test_cases inC outC = r) ∧
    (try_section_parsing inC outC = none → try_line_parsing inC outC = none →
      ∀ r, try_intelligent_parsing inC outC = some r →
        parse_test_cases inC outC = r) ∧
    (try_section_parsing inC outC = none → try_line_parsing inC outC = none →
      try_intelligent_parsing inC outC = none →
      parse_test_cases inC outC =
        [{ input := pyStrip inC, output := pyStrip outC, case_number := 1 }]) := by
  unfold parse_test_cases
  rw [if_neg (by simp [h1, h2])]
  refine ⟨?_, ?_, ?_, ?_⟩
  · intro r hr
    rw [hr]
  · intro hs r hr
    rw [hs, hr]
  · intro hs hl r hr
    rw [hs, hl, hr]
  · intro hs hl hi
    rw [hs, hl, hi]

/-- Witness for C5 at concrete blobs: the line strategy fires and its
result is returned. -/
theorem C5_witness :
    pyStrip "1\n2" ≠ "" ∧ pyStrip "3\n4" ≠ "" ∧
    try_section_parsing "1\n2" "3\n4" = none ∧
    try_line_parsing "1\n2" "3\n4" =
      some [{ input := "1", output := "3", case_number := 1 },
            { input := "2", output := "4", case_number := 2 }] ∧
    parse_test_cases "1\n2" "3\n4" =
      [{ input := "1", output := "3", case_number := 1 },
       { input := "2", output := "4", case_number := 2 }] :=
  ⟨by decide, by decide, by decide, by decide,
    (C5_priority "1\n2" "3\n4" (by decide) (by decide)).2.1 (by decide) _ (by decide)⟩

/-! ## Claim C6 -/

/-- Claim C6: comparison of a program output against the expected output
goes through normalize_output (which unifies line endings, strips
trailing whitespace per line and drops trailing empty lines); the case
counts as correct exactly when the two normalized strings are equal, and
a mismatch makes the evaluation loop return WrongAnswer. -/
theorem C6_normalized_comparison (run : String → Option String) (c : TC)
    (rest : List TC) (actual : String) (h : run c.input = some actual) :
    evalCases run (c :: rest) =
      if normalize_output c.output = normalize_output actual then
        evalCases run rest
      else
        Verdict.WA := by
  by_cases he : normalize_output c.output = normalize_output actual
  · simp [evalCases, h, he]
  · simp [evalCases, h, he]

/-- Witness for C6 at a concrete case, showing both the match and the
mismatch directions: equal normalized outputs continue to Accepted, and
a mismatching output yields WrongAnswer. -/
theorem C6_witness :
    ((fun _ => some "5 \r\n") "1" = some "5 \r\n" ∧
      evalCases (fun _ => some "5 \r\n")
        ({ input := "1", output := "5", case_number := 1 } :: []) =
        if normalize_output "5" = normalize_output "5 \r\n" then
          evalCases (fun _ => some "5 \r\n") []
        else
          Verdict.WA) ∧
    evalCases (fun _ => some "6")
      ({ input := "1", output := "5", case_number := 1 } :: []) = Verdict.WA := by
  refine ⟨⟨rfl, C6_normalized_comparison (fun _ => some "5 \r\n") _ [] _ rfl⟩, ?_⟩
  decide

/-! ## Claim C7 -/

/-- Claim C7: test cases are evaluated in list order (which by the C9
invariant is ascending case_number order) and evaluation halts at the
first case that fails, whether by a null run result or by a normalized
mismatch: the run function is invoked exactly once per case up to and
including the first failing one, so no case after it is ever run, and
the verdict of the first failing case is the terminal verdict. -/
theorem C7_short_circuit (run : String → Option String) (pre : List TC)
    (c : TC) (post : List TC) (hpre : ∀ c' ∈ pre, casePasses run c')
    (hfail : ¬ casePasses run c) :
    evalCasesT run (pre ++ c :: post) = (firstFailVerdict run c, pre.length + 1) :=
  evalCasesT_halt run pre c post hpre hfail

/-- Witness for C7: with case two of four failing by mismatch, the loop
returns WrongAnswer after exactly two run invocations. -/
theorem C7_witness :
    (∀ c' ∈ [({ input := "a", output := "1", case_number := 1 } : TC)],
      casePasses (fun s => if s = "a" then some "1" else some "9") c') ∧
    ¬ casePasses (fun s => if s = "a" then some "1" else some "9")
      { input := "b", output := "2", case_number := 2 } ∧
    evalCasesT (fun s => if s = "a" then some "1" else some "9")
      ([{ input := "a", output := "1", case_number := 1 }] ++
        { input := "b", output := "2", case_number := 2 } ::
          [{ input := "c", output := "3", case_number := 3 },
           { input := "d", output := "4", case_number := 4 }]) =
      (firstFailVerdict (fun s => if s = "a" then some "1" else some "9")
        { input := "b", output := "2", case_number := 2 }, 2) := by
  have h1 : ∀ c' ∈ [({ input := "a", output := "1", case_number := 1 } : TC)],
      casePasses (fun s => if s = "a" then some "1" else some "9") c' := by
    intro c' hc'
    simp only [List.mem_singleton] at hc'
    subst hc'
    exact ⟨"1", rfl, rfl⟩
  have h2 : ¬ casePasses (fun s => if s = "a" then some "1" else some "9")
      { input := "b", output := "2", case_number := 2 } := by
    rintro ⟨actual, ha, he⟩
    simp only [if_neg (by decide : ¬("b" = "a"))] at ha
    rw [← Option.some.inj ha] at he
    revert he
    decide
  exact ⟨h1, h2, C7_short_circuit _ _ _ _ h1 h2⟩

/-! ## Claim C9 -/

/-- Claim C9: every list of test cases produced by parse_test_cases
carries case numbers exactly 1, 2, ..., n in list order, under every
detection strategy and under the fallback. -/
theorem C9_case_numbers (inC outC : String) (i : Nat)
    (hi : i < (parse_test_cases inC outC).length) :
    ((parse_test_cases inC outC).get ⟨i, hi⟩).case_number = i + 1 := by
  by_cases hb : pyStrip inC = "" ∨ pyStrip outC = ""
  · have hemp : parse_test_cases inC outC = [] := by
      unfold parse_test_cases
      rw [if_pos hb]
    exact absurd hi (by simp [hemp])
  · push_neg at hb
    rcases parse_test_cases_shape inC outC hb.1 hb.2 with ⟨p, hp, _⟩ | hp
    · rw [get_congr _ _ hp i hi]
      exact numberCases_get p i (hp ▸ hi)
    · have hlen : (parse_test_cases inC outC).length = 1 := by rw [hp]; rfl
      have h0 : i = 0 := by omega
      subst h0
      rw [get_congr _ _ hp 0 hi]
      rfl

/-- Witness for C9 at concrete blobs with two parsed cases. -/
theorem C9_witness :
    ((parse_test_cases "1\n2" "3\n4").get ⟨1, by decide⟩).case_number = 1 + 1 :=
  C9_case_numbers "1\n2" "3\n4" 1 (by decide)

/-! ## Claim C1 -/

/-- Claim C1 counterexample: a run whose execution phase times out makes
_run_python return None, and the judging pipeline then returns the
verdict RE (RuntimeError), not TLE. -/
theorem C1_counterexample :
    run_python (some "python3") ProcResult.timedOut "" = none ∧
    evaluate_file_test_cases true true "1" "1"
      (fun _ => run_python (some "python3") ProcResult.timedOut "") = Verdict.RE ∧
    Verdict.RE ≠ Verdict.TLE :=
  ⟨rfl, by decide, by decide⟩

/-- Claim C1 (amended): for every submission and every test case whose
execution exceeds the per-language timeout, the runner returns None and
the judging pipeline returns the verdict RE (RuntimeError), not TLE:
whenever the first not-yet-passed case is one whose run result is the
timed-out runner value, the evaluation loop terminates with RE. -/
theorem C1_timeout_verdict (cmd out : String) (run : String → Option String)
    (pre : List TC) (c : TC) (post : List TC)
    (hpre : ∀ c' ∈ pre, casePasses run c')
    (hto : run c.input = run_python (some cmd) ProcResult.timedOut out) :
    evalCases run (pre ++ c :: post) = Verdict.RE := by
  have hnone : run c.input = none := hto
  have hfail : ¬ casePasses run c := by
    rintro ⟨a, ha, -⟩
    rw [hnone] at ha
    exact Option.noConfusion ha
  have hv := congrArg Prod.fst (evalCasesT_halt run pre c post hpre hfail)
  rw [evalCasesT_fst] at hv
  simpa [firstFailVerdict, hnone] using hv

/-- Witness for C1 at a concrete failing case. -/
theorem C1_witness :
    (∀ c' ∈ ([] : List TC),
      casePasses (fun _ => run_python (some "python3") ProcResult.timedOut "") c') ∧
    evalCases (fun _ => run_python (some "python3") ProcResult.timedOut "")
      ([] ++ { input := "1", output := "1", case_number := 1 } :: []) = Verdict.RE :=
  ⟨by simp, C1_timeout_verdict "python3" "" _ [] _ [] (by simp) rfl⟩

/-! ## Claim C2 -/

/-- Claim C2 counterexample: a C++ submission whose compile step exits
non-zero never reaches the execution phase (second component false), but
the judging pipeline returns the verdict RE (RuntimeError), not CE. -/
theorem C2_counterexample :
    run_cppT (some "g++") (ProcResult.exited 1) (ProcResult.exited 0) "" =
      (none, false) ∧
    evaluate_file_test_cases true true "1" "1"
      (fun _ => run_cpp (some "g++") (ProcResult.exited 1) (ProcResult.exited 0) "") =
      Verdict.RE ∧
    Verdict.RE ≠ Verdict.CE :=
  ⟨by decide, by decide, by decide⟩

/-- Claim C2 (amended): for every compiled submission whose compile step
exits non-zero, the execution phase is never reached (that half of the
claim holds), but the runner returns None and the judging pipeline
returns the verdict RE (RuntimeError), not CE. -/
theorem C2_compile_error_verdict (cc : String) (ec : Int) (execRes : ProcResult)
    (out : String) (hec : ec ≠ 0) :
    run_cppT (some cc) (ProcResult.exited ec) execRes out = (none, false) ∧
    ∀ (run : String → Option String) (pre : List TC) (c : TC) (post : List TC),
      (∀ c' ∈ pre, casePasses run c') →
      run c.input = run_cpp (some cc) (ProcResult.exited ec) execRes out →
      evalCases run (pre ++ c :: post) = Verdict.RE := by
  have hT : run_cppT (some cc) (ProcResult.exited ec) execRes out = (none, false) := by
    simp [run_cppT, hec]
  refine ⟨hT, ?_⟩
  intro run pre c post hpre hrc
  have hnone : run c.input = none := by
    rw [hrc, run_cpp, hT]
  have hfail : ¬ casePasses run c := by
    rintro ⟨a, ha, -⟩
    rw [hnone] at ha
    exact Option.noConfusion ha
  have hv := congrArg Prod.fst (evalCasesT_halt run pre c post hpre hfail)
  rw [evalCasesT_fst] at hv
  simpa [firstFailVerdict, hnone] using hv

/-- Witness for C2 at a concrete failing compile. -/
theorem C2_witness :
    (1 : Int) ≠ 0 ∧
    run_cppT (some "g++") (ProcResult.exited 1) (ProcResult.exited 0) "" =
      (none, false) ∧
    evalCases (fun _ => run_cpp (some "g++") (ProcResult.exited 1)
        (ProcResult.exited 0) "")
      ([] ++ { input := "1", output := "1", case_number := 1 } :: []) = Verdict.RE :=
  ⟨by decide, (C2_compile_error_verdict "g++" 1 (ProcResult.exited 0) "" (by decide)).1,
    (C2_compile_error_verdict "g++" 1 (ProcResult.exited 0) "" (by decide)).2
      _ [] _ [] (by simp) rfl⟩

/-! ## Claim C3 -/

/-- Claim C3 counterexample: when no interpreter candidate passes the
version probe, _find_python returns None, _run_python returns None, and
the judged verdict is RE (RuntimeError) - precisely one of the verdicts
the claim excludes - rather than IE (InternalError). -/
theorem C3_counterexample :
    find_python (fun _ => none) = none ∧
    evaluate_file_test_cases true true "1" "1"
      (fun _ => run_python (find_python (fun _ => none)) (ProcResult.exited 0) "") =
      Verdict.RE ∧
    Verdict.RE ≠ Verdict.IE :=
  ⟨by decide, by decide, by decide⟩

/-- Claim C3 (amended): for every submission whose language has no
working toolchain - no candidate passes the version probe, whether the
probe raises (modelled as none) or completes with a non-zero exit code
or a stdout lacking the version marker - the toolchain lookup returns
None, the runner returns None, and the judged verdict is RE
(RuntimeError), not IE (InternalError). -/
theorem C3_toolchain_missing_verdict (probe : String → Option (Int × String))
    (hprobe : ∀ (cmd : String) (r : Int × String),
      probe cmd = some r → ¬(r.1 = 0 ∧ strContains r.2 "3.")) :
    find_python probe = none ∧
    ∀ (execRes : ProcResult) (out : String) (run : String → Option String)
      (pre : List TC) (c : TC) (post : List TC),
      (∀ c' ∈ pre, casePasses run c') →
      run c.input = run_python (find_python probe) execRes out →
      evalCases run (pre ++ c :: post) = Verdict.RE := by
  have hfp : find_python probe = none := by
    unfold find_python
    refine List.findSome?_eq_none_iff.mpr ?_
    intro cmd _
    cases hp : probe cmd with
    | none => rfl
    | some r =>
      simp only [hp]
      rw [if_neg (hprobe cmd r hp)]
  refine ⟨hfp, ?_⟩
  intro execRes out run pre c post hpre hrc
  have hnone : run c.input = none := by
    rw [hrc, hfp, run_python]
  have hfail : ¬ casePasses run c := by
    rintro ⟨a, ha, -⟩
    rw [hnone] at ha
    exact Option.noConfusion ha
  have hv := congrArg Prod.fst (evalCasesT_halt run pre c post hpre hfail)
  rw [evalCasesT_fst] at hv
  simpa [firstFailVerdict, hnone] using hv

/-- Witness for C3 with a probe that completes on every candidate but
exits non-zero, so no candidate passes the version probe even though no
probe raises. -/
theorem C3_witness :
    (∀ (cmd : String) (r : Int × String),
      (fun _ : String => some ((1 : Int), "")) cmd = some r →
      ¬(r.1 = 0 ∧ strContains r.2 "3.")) ∧
    find_python (fun _ : String => some ((1 : Int), "")) = none ∧
    evalCases (fun _ => run_python (find_python (fun _ : String => some ((1 : Int), "")))
        (ProcResult.exited 0) "")
      ([] ++ { input := "1", output := "1", case_number := 1 } :: []) = Verdict.RE := by
  have hp : ∀ (cmd : String) (r : Int × String),
      (fun _ : String => some ((1 : Int), "")) cmd = some r →
      ¬(r.1 = 0 ∧ strContains r.2 "3.") := by
    intro cmd r h
    cases Option.some.inj h
    decide
  exact ⟨hp, (C3_toolchain_missing_verdict _ hp).1,
    (C3_toolchain_missing_verdict _ hp).2
      (ProcResult.exited 0) "" _ [] _ [] (by simp) rfl⟩

/-! ## Claim C8 -/

/-- Claim C8: after every run_code call, whatever the outcome (a body
result, None included, or an exception before or after the workspace was
created), the workspace directory created by that call is no longer on
disk. -/
theorem C8_workspace_cleanup (dirs : List String) (ws : String)
    (attempt : RunAttempt) (hfresh : ws ∉ dirs) :
    ws ∉ (run_code_fs dirs ws attempt).2 := by
  cases attempt with
  | beforeWorkspace => simpa [run_code_fs] using hfresh
  | body r => simp [run_code_fs, hfresh, List.mem_filter]
  | raised => simp [run_code_fs, hfresh, List.mem_filter]

/-- Witness for C8 on a concrete run. -/
theorem C8_witness :
    "oj_run_w" ∉ ["other"] ∧
    "oj_run_w" ∉ (run_code_fs ["other"] "oj_run_w" (RunAttempt.body (some "out"))).2 :=
  ⟨by decide, C8_workspace_cleanup ["other"] "oj_run_w"
    (RunAttempt.body (some "out")) (by decide)⟩

/-! ## Claim C10 -/

/-- Claim C10: for every submission against a problem with no database
test cases and a missing per-problem input or output test file,
evaluate_submission returns the verdict AC and the run function is
invoked zero times. -/
theorem C10_no_tests_accepted (run : String → Option String)
    (inC outC : String) (inEx outEx : Bool)
    (h : inEx = false ∨ outEx = false) :
    evaluate_submissionT [] inEx outEx inC outC run = (Verdict.AC, 0) := by
  have hfile : evaluate_file_test_casesT inEx outEx inC outC run = (Verdict.AC, 0) := by
    unfold evaluate_file_test_casesT
    rcases h with h | h <;> simp [h]
  simp [evaluate_submissionT, evalDbCasesT, hfile]

/-- Witness for C10 with a missing input file. -/
theorem C10_witness :
    ((false : Bool) = false ∨ (true : Bool) = false) ∧
    evaluate_submissionT [] false true "ignored" "ignored"
      (fun _ => some "x") = (Verdict.AC, 0) :=
  ⟨Or.inl rfl, C10_no_tests_accepted (fun _ => some "x") "ignored" "ignored"
    false true (Or.inl rfl)⟩

end OJ
